import Mathlib

/-
Verification of the eodini core domain model: schedules, driver override
assignments, trips and per-passenger boarding records.  The definitions below
are a shallow embedding of the Go source files internal/domain/route.go and
the schedule domain file; mutating Go methods become pure functions that take
the receiver (and an explicit clock value standing for time.Now) and return
the updated record, paired with an Option String standing for the Go error
return value (none means the Go method returned nil).
-/

namespace Eodini

/-- Model of a Go time.Time instant, as nanoseconds since the Unix epoch,
interpreted in one fixed location.  The civil day of an instant is its floor
division by the number of nanoseconds in a day; 1970-01-01 (day index 0) was a
Thursday, whose Go Weekday value is 4 (Go counts 0=Sunday .. 6=Saturday). -/
structure GoTime where
  ns : Int
deriving DecidableEq

/-- Nanoseconds in one civil day. -/
def nsPerDay : Int := 86400000000000

/-- Go method time.Before. -/
def GoTime.Before (a b : GoTime) : Bool := a.ns < b.ns

/-- Go method time.After. -/
def GoTime.After (a b : GoTime) : Bool := b.ns < a.ns

/-- Go method time.Equal. -/
def GoTime.Equal (a b : GoTime) : Bool := a.ns = b.ns

/-- Index of the civil day containing the instant (floor division). -/
def GoTime.dayIndex (t : GoTime) : Int := t.ns.fdiv nsPerDay

/-- The Go expression time.Date(t.Year(), t.Month(), t.Day(), 0,0,0,0, loc):
the midnight instant opening the civil day of t. -/
def GoTime.truncateToDay (t : GoTime) : GoTime := ⟨t.dayIndex * nsPerDay⟩

/-- Go method time.Weekday, as an Int in 0..6 with 0 = Sunday. -/
def GoTime.Weekday (t : GoTime) : Int := (t.dayIndex + 4).emod 7

/-- The midnight instant of a given civil day index. -/
def GoTime.ofDay (d : Int) : GoTime := ⟨d * nsPerDay⟩

/-- Go struct Location (route.go): a position sample. -/
structure Location where
  Latitude : Float
  Longitude : Float
  Timestamp : GoTime

/-- Go type TripStatus (route.go). -/
inductive TripStatus where
  | pending
  | in_progress
  | completed
  | cancelled
deriving DecidableEq

/-- String value of a TripStatus, used in Go error messages. -/
def TripStatus.str : TripStatus → String
  | .pending => "pending"
  | .in_progress => "in_progress"
  | .completed => "completed"
  | .cancelled => "cancelled"

/-- Go struct TripPassenger (route.go). -/
structure TripPassenger where
  ID : String
  TripID : String
  PassengerID : String
  StopID : String
  BoardedAt : Option GoTime
  AlightedAt : Option GoTime
  IsBoarded : Bool
  IsAlighted : Bool
  NoShowReason : String
  Notes : String
  CreatedAt : GoTime
  UpdatedAt : GoTime
deriving DecidableEq

/-- Go struct Trip (route.go). -/
structure Trip where
  ID : String
  ScheduleID : String
  Date : GoTime
  Status : TripStatus
  VehicleID : String
  AssignedDriverID : String
  AssignedAttendantID : Option String
  StartedAt : Option GoTime
  CompletedAt : Option GoTime
  StartedBy : String
  ActualStartLocation : Option Location
  ActualEndLocation : Option Location
  TotalDistance : Int
  TripPassengers : List TripPassenger
  CancelledAt : Option GoTime
  CancellationReason : String
  Notes : String
  CreatedAt : GoTime
  UpdatedAt : GoTime
  DeletedAt : Option GoTime

/-- Go factory NewTrip (route.go): fresh trip in pending status. -/
def NewTrip (scheduleID : String) (date : GoTime) (vehicleID driverID : String)
    (attendantID : Option String) (now : GoTime) : Trip :=
  { ID := ""
    ScheduleID := scheduleID
    Date := date
    VehicleID := vehicleID
    AssignedDriverID := driverID
    AssignedAttendantID := attendantID
    Status := TripStatus.pending
    StartedAt := none
    CompletedAt := none
    StartedBy := ""
    ActualStartLocation := none
    ActualEndLocation := none
    TotalDistance := 0
    TripPassengers := []
    CancelledAt := none
    CancellationReason := ""
    Notes := ""
    CreatedAt := now
    UpdatedAt := now
    DeletedAt := none }

/-- Go factory NewTripPassenger (route.go). -/
def NewTripPassenger (tripID passengerID stopID : String) (now : GoTime) : TripPassenger :=
  { ID := ""
    TripID := tripID
    PassengerID := passengerID
    StopID := stopID
    BoardedAt := none
    AlightedAt := none
    IsBoarded := false
    IsAlighted := false
    NoShowReason := ""
    Notes := ""
    CreatedAt := now
    UpdatedAt := now }

/-- Go method Trip.IsCompleted. -/
def Trip.IsCompleted (t : Trip) : Bool := decide (t.Status = TripStatus.completed)

/-- Go method Trip.CanStart. -/
def Trip.CanStart (t : Trip) : Bool := decide (t.Status = TripStatus.pending)

/-- Go method Trip.CanComplete. -/
def Trip.CanComplete (t : Trip) : Bool := decide (t.Status = TripStatus.in_progress)

/-- Go method Trip.Start (route.go): guard CanStart, then set status, start
timestamp, starter identity, start location and UpdatedAt.  The Option String
is the Go error value. -/
def Trip.Start (t : Trip) (startedBy : String) (location : Option Location)
    (now : GoTime) : Trip × Option String :=
  if t.CanStart then
    ({ t with Status := TripStatus.in_progress
              StartedAt := some now
              StartedBy := startedBy
              ActualStartLocation := location
              UpdatedAt := now }, none)
  else
    (t, some ("cannot start trip: current status is " ++ t.Status.str))

/-- Go method Trip.Complete (route.go). -/
def Trip.Complete (t : Trip) (location : Option Location)
    (now : GoTime) : Trip × Option String :=
  if t.CanComplete then
    ({ t with Status := TripStatus.completed
              CompletedAt := some now
              ActualEndLocation := location
              UpdatedAt := now }, none)
  else
    (t, some ("cannot complete trip: current status is " ++ t.Status.str))

/-- Go method Trip.Cancel (route.go): guarded only by IsCompleted. -/
def Trip.Cancel (t : Trip) (reason : String) (now : GoTime) : Trip × Option String :=
  if t.IsCompleted then
    (t, some "cannot cancel completed trip")
  else
    ({ t with Status := TripStatus.cancelled
              CancelledAt := some now
              CancellationReason := reason
              UpdatedAt := now }, none)

/-- Go method TripPassenger.BoardPassenger (route.go). -/
def TripPassenger.BoardPassenger (tp : TripPassenger) (now : GoTime) : TripPassenger :=
  { tp with IsBoarded := true, BoardedAt := some now, UpdatedAt := now }

/-- Go method TripPassenger.AlightPassenger (route.go). -/
def TripPassenger.AlightPassenger (tp : TripPassenger) (now : GoTime) : TripPassenger :=
  { tp with IsAlighted := true, AlightedAt := some now, UpdatedAt := now }

/-- Go method TripPassenger.MarkNoShow (route.go). -/
def TripPassenger.MarkNoShow (tp : TripPassenger) (reason : String)
    (now : GoTime) : TripPassenger :=
  { tp with IsBoarded := false, NoShowReason := reason, UpdatedAt := now }

/-- Go type ScheduleStatus (schedule domain file). -/
inductive ScheduleStatus where
  | active
  | inactive
deriving DecidableEq

/-- Go type TimeSlot (schedule domain file). -/
inductive TimeSlot where
  | morning
  | afternoon
  | evening
deriving DecidableEq

/-- Go struct Schedule (schedule domain file).  DaysOfWeek is the recurrence
set encoded 1=Monday .. 7=Sunday. -/
structure Schedule where
  ID : String
  Name : String
  Description : String
  Status : ScheduleStatus
  StartTime : String
  TimeSlotField : TimeSlot
  DaysOfWeek : List Int
  RouteID : String
  VehicleID : String
  DefaultDriverID : String
  DefaultAttendantID : Option String
  ValidFrom : Option GoTime
  ValidTo : Option GoTime
  CreatedAt : GoTime
  UpdatedAt : GoTime
  DeletedAt : Option GoTime
deriving DecidableEq

/-- Go method Schedule.IsActive. -/
def Schedule.IsActive (s : Schedule) : Bool :=
  decide (s.Status = ScheduleStatus.active) && s.DeletedAt.isNone

/-- Go method Schedule.IsActiveOnDate (schedule domain file).  Note that the
validity-window guards compare the raw instants with time.Before and
time.After, with no truncation to the civil day; only the weekday is computed
from the civil day. -/
def Schedule.IsActiveOnDate (s : Schedule) (date : GoTime) : Bool :=
  if !s.IsActive then false
  else if (match s.ValidFrom with
           | some vf => date.Before vf
           | none => false) then false
  else if (match s.ValidTo with
           | some vt => date.After vt
           | none => false) then false
  else
    let w := date.Weekday
    let dayOfWeek := if w = 0 then 7 else w
    decide (dayOfWeek ∈ s.DaysOfWeek)

/-- Go struct DriverAssignment (route.go): a time-bounded driver override. -/
structure DriverAssignment where
  ID : String
  ScheduleID : String
  DriverID : String
  StartDate : GoTime
  EndDate : GoTime
  Reason : String
  ApprovedBy : String
  ApprovedAt : Option GoTime
  CreatedBy : String
  CreatedAt : GoTime
  UpdatedAt : GoTime
  DeletedAt : Option GoTime
deriving DecidableEq

/-- Go factory NewDriverAssignment (route.go): copies the supplied dates with
no validation of their order. -/
def NewDriverAssignment (scheduleID driverID : String) (startDate endDate : GoTime)
    (reason createdBy : String) (now : GoTime) : DriverAssignment :=
  { ID := ""
    ScheduleID := scheduleID
    DriverID := driverID
    StartDate := startDate
    EndDate := endDate
    Reason := reason
    ApprovedBy := ""
    ApprovedAt := none
    CreatedBy := createdBy
    CreatedAt := now
    UpdatedAt := now
    DeletedAt := none }

/-- Go method DriverAssignment.IsActiveOnDate (route.go): truncates all three
instants to their civil day and tests inclusive containment. -/
def DriverAssignment.IsActiveOnDate (da : DriverAssignment) (date : GoTime) : Bool :=
  if da.DeletedAt.isSome then false
  else
    let dateOnly := date.truncateToDay
    let startDateOnly := da.StartDate.truncateToDay
    let endDateOnly := da.EndDate.truncateToDay
    (dateOnly.Equal startDateOnly || dateOnly.After startDateOnly) &&
      (dateOnly.Equal endDateOnly || dateOnly.Before endDateOnly)

/-- Go method DriverAssignment.ExtendPeriod (route.go). -/
def DriverAssignment.ExtendPeriod (da : DriverAssignment) (newEndDate now : GoTime) :
    DriverAssignment × Option String :=
  if newEndDate.Before da.StartDate then
    (da, some "end date cannot be before start date")
  else if newEndDate.Before da.EndDate then
    (da, some "new end date must be after current end date")
  else
    ({ da with EndDate := newEndDate, UpdatedAt := now }, none)

/-- Go method DriverAssignment.ShortenPeriod (route.go). -/
def DriverAssignment.ShortenPeriod (da : DriverAssignment) (newEndDate now : GoTime) :
    DriverAssignment × Option String :=
  if newEndDate.Before da.StartDate then
    (da, some "end date cannot be before start date")
  else if newEndDate.After da.EndDate then
    (da, some "new end date must be before current end date")
  else
    ({ da with EndDate := newEndDate, UpdatedAt := now }, none)

/-- One boarding-tracker call on a TripPassenger record, with the clock value
the call would observe. -/
inductive TPOp where
  | board (now : GoTime)
  | alight (now : GoTime)
  | markNoShow (reason : String) (now : GoTime)

/-- Apply one boarding-tracker call. -/
def TripPassenger.applyOp (tp : TripPassenger) : TPOp → TripPassenger
  | .board now => tp.BoardPassenger now
  | .alight now => tp.AlightPassenger now
  | .markNoShow reason now => tp.MarkNoShow reason now

/-- Apply a sequence of boarding-tracker calls, left to right. -/
def TripPassenger.applyOps (tp : TripPassenger) : List TPOp → TripPassenger
  | [] => tp
  | op :: rest => (tp.applyOp op).applyOps rest

/-- True when the call sequence contains no MarkNoShow call. -/
def noMarkNoShow : List TPOp → Bool
  | [] => true
  | .markNoShow _ _ :: _ => false
  | .board _ :: rest => noMarkNoShow rest
  | .alight _ :: rest => noMarkNoShow rest

/-- True when every Alight call in the sequence is preceded by some Board
call; the Bool argument records whether a Board call has already occurred. -/
def alightsAfterBoard : Bool → List TPOp → Bool
  | _, [] => true
  | _, .board _ :: rest => alightsAfterBoard true rest
  | seenBoard, .alight _ :: rest => seenBoard && alightsAfterBoard seenBoard rest
  | seenBoard, .markNoShow _ _ :: rest => alightsAfterBoard seenBoard rest

/-- Modelled from the spec: one skipped entry of the generation report of
section 4.3; the Trip Generator itself is not implemented under src (only the
domain entities are, plus a service sketch in the architecture document). -/
structure SkipEntry where
  scheduleID : String
  reason : String
deriving DecidableEq

/-- Modelled from the spec: the generation report of section 4.3. -/
structure GenerationReport where
  created : List Trip
  skipped : List SkipEntry

/-- Modelled from the spec: ExistingTripKeysForDate of section 6 restricted to
the trip store snapshot, as the schedule identifiers of the non-deleted trips
recorded for the date. -/
def existingTripKeys (store : List Trip) (date : GoTime) : List String :=
  (store.filter fun t => decide (t.Date = date) && t.DeletedAt.isNone).map
    (fun t => t.ScheduleID)

/-- Modelled from the spec: the override list ordered by most recent start
date, section 4.2 tie-break; returns the override with the latest StartDate. -/
def latestOverride : List DriverAssignment → Option DriverAssignment
  | [] => none
  | da :: rest =>
    match latestOverride rest with
    | none => some da
    | some best => if best.StartDate.ns < da.StartDate.ns then some da else some best

/-- Modelled from the spec: ResolveDriver of section 4.2; overrides active on
the date take precedence over the default driver, latest start date wins. -/
def resolveDriver (s : Schedule) (date : GoTime)
    (overrides : List DriverAssignment) : String :=
  match latestOverride (overrides.filter fun da => da.IsActiveOnDate date) with
  | none => s.DefaultDriverID
  | some da => da.DriverID

/-- Modelled from the spec: the trip emitted for one schedule in section 4.3,
built by NewTrip and seeded with one TripPassenger per passenger currently
assigned to the route of the schedule (rosterOf yields passenger and stop
identifier pairs per route). -/
def tripForSchedule (s : Schedule) (date : GoTime)
    (overridesFor : String → List DriverAssignment)
    (rosterOf : String → List (String × String)) (now : GoTime) : Trip :=
  let base := NewTrip s.ID date s.VehicleID
    (resolveDriver s date (overridesFor s.ID)) s.DefaultAttendantID now
  { base with TripPassengers :=
      (rosterOf s.RouteID).map fun p => NewTripPassenger base.ID p.1 p.2 now }

/-- Modelled from the spec: the per-schedule loop of GenerateTripsForDate in
section 4.3, run against a fixed key set; a schedule already present among the
keys is skipped with reason already generated, a schedule not active on the
date is skipped with reason not scheduled, otherwise a trip is created. -/
def genLoop (date : GoTime) (overridesFor : String → List DriverAssignment)
    (rosterOf : String → List (String × String)) (keys : List String)
    (now : GoTime) : List Schedule → List Trip × List SkipEntry
  | [] => ([], [])
  | s :: rest =>
    let r := genLoop date overridesFor rosterOf keys now rest
    if decide (s.ID ∈ keys) then
      (r.1, ⟨s.ID, "already generated"⟩ :: r.2)
    else if s.IsActiveOnDate date then
      (tripForSchedule s date overridesFor rosterOf now :: r.1, r.2)
    else
      (r.1, ⟨s.ID, "not scheduled"⟩ :: r.2)

/-- Modelled from the spec: GenerateTripsForDate of sections 4.3 and 6, over
an explicit trip store snapshot; the existing trip keys are computed once up
front, the created trips are appended to the store, and the report lists the
created trips and the skipped schedules. -/
def generateTripsForDate (date : GoTime) (schedules : List Schedule)
    (overridesFor : String → List DriverAssignment)
    (rosterOf : String → List (String × String))
    (store : List Trip) (now : GoTime) : List Trip × GenerationReport :=
  let keys := existingTripKeys store date
  let r := genLoop date overridesFor rosterOf keys now schedules
  (store ++ r.1, ⟨r.1, r.2⟩)

/-! Concrete sample records used by the witness theorems. -/

/-- A freshly generated sample trip. -/
def trip0 : Trip := NewTrip "sched1" (GoTime.ofDay 0) "veh1" "drv1" none (GoTime.ofDay 0)

/-- The sample trip after a successful Start. -/
def tripStarted : Trip := (trip0.Start "driver:drv1" none (GoTime.ofDay 0)).1

/-- The sample trip after Start and Complete. -/
def tripDone : Trip := (tripStarted.Complete none (GoTime.ofDay 0)).1

/-- The sample trip cancelled straight from pending. -/
def tripCancelled : Trip := (trip0.Cancel "weather" (GoTime.ofDay 0)).1

/-- Claim C10: a trip built by NewTrip has pending status, an empty
TripPassengers collection, no start, completion or cancellation timestamp, and
carries the schedule reference, date, vehicle, driver and optional attendant
it was created with. -/
theorem claimC10_newTrip (scheduleID : String) (date : GoTime)
    (vehicleID driverID : String) (attendantID : Option String) (now : GoTime) :
    (NewTrip scheduleID date vehicleID driverID attendantID now).Status = TripStatus.pending ∧
    (NewTrip scheduleID date vehicleID driverID attendantID now).TripPassengers = [] ∧
    (NewTrip scheduleID date vehicleID driverID attendantID now).StartedAt = none ∧
    (NewTrip scheduleID date vehicleID driverID attendantID now).CompletedAt = none ∧
    (NewTrip scheduleID date vehicleID driverID attendantID now).CancelledAt = none ∧
    (NewTrip scheduleID date vehicleID driverID attendantID now).ScheduleID = scheduleID ∧
    (NewTrip scheduleID date vehicleID driverID attendantID now).Date = date ∧
    (NewTrip scheduleID date vehicleID driverID attendantID now).VehicleID = vehicleID ∧
    (NewTrip scheduleID date vehicleID driverID attendantID now).AssignedDriverID = driverID ∧
    (NewTrip scheduleID date vehicleID driverID attendantID now).AssignedAttendantID = attendantID :=
  ⟨rfl, rfl, rfl, rfl, rfl, rfl, rfl, rfl, rfl, rfl⟩

/-- Claim C2: Start succeeds exactly from pending and then records status,
start timestamp, starter identity and start location; Complete succeeds
exactly from in_progress and then records status, completion timestamp and
end location; a second Start on the same trip fails. -/
theorem claimC2_start_complete (t : Trip) (sb sb2 : String)
    (loc loc2 locC : Option Location) (now now2 : GoTime) :
    ((t.Start sb loc now).2 = none ↔ t.Status = TripStatus.pending) ∧
    (t.Status = TripStatus.pending →
      (t.Start sb loc now).1 =
        { t with Status := TripStatus.in_progress, StartedAt := some now,
                 StartedBy := sb, ActualStartLocation := loc, UpdatedAt := now }) ∧
    ((t.Complete locC now).2 = none ↔ t.Status = TripStatus.in_progress) ∧
    (t.Status = TripStatus.in_progress →
      (t.Complete locC now).1 =
        { t with Status := TripStatus.completed, CompletedAt := some now,
                 ActualEndLocation := locC, UpdatedAt := now }) ∧
    (t.Status = TripStatus.pending →
      ((t.Start sb loc now).1.Start sb2 loc2 now2).2 ≠ none) := by
  cases ht : t.Status <;>
    simp [Trip.Start, Trip.Complete, Trip.CanStart, Trip.CanComplete, ht]

/-- Witness for claim C2: the sample pending trip starts successfully with the
documented effects, and a second Start on it fails. -/
theorem claimC2_witness :
    trip0.Status = TripStatus.pending ∧
    (trip0.Start "driver:drv1" none (GoTime.ofDay 0)).1 =
      { trip0 with Status := TripStatus.in_progress, StartedAt := some (GoTime.ofDay 0),
                   StartedBy := "driver:drv1", ActualStartLocation := none,
                   UpdatedAt := GoTime.ofDay 0 } ∧
    ((trip0.Start "driver:drv1" none (GoTime.ofDay 0)).1.Start "driver:drv1" none
      (GoTime.ofDay 1)).2 ≠ none := by
  have h := claimC2_start_complete trip0 "driver:drv1" "driver:drv1" none none none
    (GoTime.ofDay 0) (GoTime.ofDay 1)
  exact ⟨rfl, h.2.1 rfl, h.2.2.2.2 rfl⟩

/-- Counterexample to claim C3 as stated: Cancel on an already cancelled trip
succeeds, because the Go guard only rejects completed trips. -/
theorem claimC3_counterexample :
    tripCancelled.Status = TripStatus.cancelled ∧
    (tripCancelled.Cancel "again" (GoTime.ofDay 1)).2 = none := by
  exact ⟨rfl, rfl⟩

/-- Claim C3 (amended): completed is terminal for Start, Complete and Cancel;
from cancelled, Start and Complete fail but Cancel succeeds again; Cancel
succeeds exactly when the status is not completed and then sets status
cancelled and records the cancellation timestamp and reason. -/
theorem claimC3_amended (t : Trip) (sb : String) (loc locC : Option Location)
    (reason : String) (now : GoTime) :
    (t.Status = TripStatus.completed ∨ t.Status = TripStatus.cancelled →
      (t.Start sb loc now).2 ≠ none ∧ (t.Complete locC now).2 ≠ none) ∧
    ((t.Cancel reason now).2 = none ↔ ¬ t.Status = TripStatus.completed) ∧
    (¬ t.Status = TripStatus.completed →
      (t.Cancel reason now).1 =
        { t with Status := TripStatus.cancelled, CancelledAt := some now,
                 CancellationReason := reason, UpdatedAt := now }) := by
  cases ht : t.Status <;>
    simp [Trip.Start, Trip.Complete, Trip.Cancel, Trip.CanStart, Trip.CanComplete,
      Trip.IsCompleted, ht]

/-- Witness for claim C3 (amended): on the cancelled sample trip Start and
Complete fail while Cancel succeeds again. -/
theorem claimC3_witness :
    (tripCancelled.Start "driver:drv1" none (GoTime.ofDay 1)).2 ≠ none ∧
    (tripCancelled.Complete none (GoTime.ofDay 1)).2 ≠ none ∧
    (tripCancelled.Cancel "again" (GoTime.ofDay 1)).2 = none := by
  have h := claimC3_amended tripCancelled "driver:drv1" none none "again" (GoTime.ofDay 1)
  have hfail := h.1 (Or.inr rfl)
  exact ⟨hfail.1, hfail.2, h.2.1.mpr (by decide)⟩

/-- Claim C4: when Start, Complete or Cancel returns an error, the trip value
is returned entirely unchanged. -/
theorem claimC4_error_unchanged (t : Trip) (sb : String) (loc locC : Option Location)
    (reason : String) (now : GoTime) :
    ((t.Start sb loc now).2 ≠ none → (t.Start sb loc now).1 = t) ∧
    ((t.Complete locC now).2 ≠ none → (t.Complete locC now).1 = t) ∧
    ((t.Cancel reason now).2 ≠ none → (t.Cancel reason now).1 = t) := by
  cases ht : t.Status <;>
    simp [Trip.Start, Trip.Complete, Trip.Cancel, Trip.CanStart, Trip.CanComplete,
      Trip.IsCompleted, ht]

/-- Witness for claim C4: Start on the completed sample trip errors and the
returned trip equals the input. -/
theorem claimC4_witness :
    (tripDone.Start "driver:drv1" none (GoTime.ofDay 1)).2 ≠ none ∧
    (tripDone.Start "driver:drv1" none (GoTime.ofDay 1)).1 = tripDone := by
  have h := claimC4_error_unchanged tripDone "driver:drv1" none none "r" (GoTime.ofDay 1)
  have hne : (tripDone.Start "driver:drv1" none (GoTime.ofDay 1)).2 ≠ none := by decide
  exact ⟨hne, h.1 hne⟩

/-- A freshly seeded sample passenger record. -/
def tpFresh : TripPassenger := NewTripPassenger "trip1" "pass1" "stop1" (GoTime.ofDay 0)

/-- Counterexample to claim C9 as stated: Board after MarkNoShow leaves the
record boarded with the no-show reason still recorded, and a lone Alight
leaves the record alighted without ever being boarded. -/
theorem claimC9_counterexample :
    ((tpFresh.applyOps [TPOp.markNoShow "sick" (GoTime.ofDay 0),
        TPOp.board (GoTime.ofDay 0)]).IsBoarded = true ∧
      (tpFresh.applyOps [TPOp.markNoShow "sick" (GoTime.ofDay 0),
        TPOp.board (GoTime.ofDay 0)]).NoShowReason = "sick") ∧
    ((tpFresh.applyOps [TPOp.alight (GoTime.ofDay 0)]).IsAlighted = true ∧
      (tpFresh.applyOps [TPOp.alight (GoTime.ofDay 0)]).IsBoarded = false) := by
  decide

/-- Under a call sequence with no MarkNoShow and every Alight preceded by a
Board, a record with empty no-show reason whose alighted flag implies its
boarded flag keeps both properties; the Bool argument tracks whether a Board
call has already happened and implies the boarded flag. -/
theorem applyOps_discipline (ops : List TPOp) :
    ∀ (tp : TripPassenger) (seenBoard : Bool),
      noMarkNoShow ops = true →
      alightsAfterBoard seenBoard ops = true →
      tp.NoShowReason = "" →
      (seenBoard = true → tp.IsBoarded = true) →
      (tp.IsAlighted = true → tp.IsBoarded = true) →
      (tp.applyOps ops).NoShowReason = "" ∧
        ((tp.applyOps ops).IsAlighted = true → (tp.applyOps ops).IsBoarded = true) := by
  induction ops with
  | nil =>
    intro tp seenBoard _ _ hReason _ hAl
    exact ⟨hReason, hAl⟩
  | cons op rest ih =>
    intro tp seenBoard hNo hPrec hReason hSeen hAl
    cases op with
    | board now =>
      refine ih (tp.BoardPassenger now) true ?_ ?_ ?_ ?_ ?_
      · exact hNo
      · exact hPrec
      · exact hReason
      · intro _; rfl
      · intro _; rfl
    | alight now =>
      have hPrec2 := hPrec
      simp only [alightsAfterBoard, Bool.and_eq_true] at hPrec2
      have hBoarded : tp.IsBoarded = true := hSeen hPrec2.1
      refine ih (tp.AlightPassenger now) seenBoard ?_ ?_ ?_ ?_ ?_
      · exact hNo
      · exact hPrec2.2
      · exact hReason
      · intro h; exact hSeen h
      · intro _; exact hBoarded
    | markNoShow reason now =>
      simp [noMarkNoShow] at hNo

/-- Claim C9 (amended): the invariants hold only under caller discipline.  For
any sequence of boarding calls that contains no MarkNoShow and in which every
Alight call is preceded by a Board call, a freshly seeded record never ends up
boarded with a recorded no-show reason, and alighted implies boarded; the code
itself does not enforce either property (see the counterexample). -/
theorem claimC9_amended (tripID passengerID stopID : String) (t0 : GoTime)
    (ops : List TPOp) (hNo : noMarkNoShow ops = true)
    (hPrec : alightsAfterBoard false ops = true) :
    ¬(((NewTripPassenger tripID passengerID stopID t0).applyOps ops).IsBoarded = true ∧
        ((NewTripPassenger tripID passengerID stopID t0).applyOps ops).NoShowReason ≠ "") ∧
    (((NewTripPassenger tripID passengerID stopID t0).applyOps ops).IsAlighted = true →
      ((NewTripPassenger tripID passengerID stopID t0).applyOps ops).IsBoarded = true) := by
  have h := applyOps_discipline ops (NewTripPassenger tripID passengerID stopID t0) false
    hNo hPrec rfl (by intro hx; exact Bool.noConfusion hx)
    (by intro hx; exact Bool.noConfusion hx)
  refine ⟨?_, h.2⟩
  rintro ⟨-, hne⟩
  exact hne h.1

/-- Witness for claim C9 (amended): the disciplined sequence Board then Alight
on a fresh record satisfies both hypotheses and both invariants. -/
theorem claimC9_witness :
    noMarkNoShow [TPOp.board (GoTime.ofDay 0), TPOp.alight (GoTime.ofDay 0)] = true ∧
    alightsAfterBoard false [TPOp.board (GoTime.ofDay 0), TPOp.alight (GoTime.ofDay 0)] = true ∧
    (¬(((NewTripPassenger "trip1" "pass1" "stop1" (GoTime.ofDay 0)).applyOps
          [TPOp.board (GoTime.ofDay 0), TPOp.alight (GoTime.ofDay 0)]).IsBoarded = true ∧
        ((NewTripPassenger "trip1" "pass1" "stop1" (GoTime.ofDay 0)).applyOps
          [TPOp.board (GoTime.ofDay 0), TPOp.alight (GoTime.ofDay 0)]).NoShowReason ≠ "") ∧
      (((NewTripPassenger "trip1" "pass1" "stop1" (GoTime.ofDay 0)).applyOps
          [TPOp.board (GoTime.ofDay 0), TPOp.alight (GoTime.ofDay 0)]).IsAlighted = true →
        ((NewTripPassenger "trip1" "pass1" "stop1" (GoTime.ofDay 0)).applyOps
          [TPOp.board (GoTime.ofDay 0), TPOp.alight (GoTime.ofDay 0)]).IsBoarded = true)) :=
  ⟨by decide, by decide,
    claimC9_amended "trip1" "pass1" "stop1" (GoTime.ofDay 0)
      [TPOp.board (GoTime.ofDay 0), TPOp.alight (GoTime.ofDay 0)] (by decide) (by decide)⟩

/-- Counterexample to claim C8 as stated: NewDriverAssignment performs no
validation, so it produces an assignment whose start date is strictly after
its end date. -/
theorem claimC8_counterexample :
    ¬((NewDriverAssignment "sched1" "drvG" (GoTime.ofDay 1) (GoTime.ofDay 0)
        "vacation" "admin" (GoTime.ofDay 0)).StartDate.ns ≤
      (NewDriverAssignment "sched1" "drvG" (GoTime.ofDay 1) (GoTime.ofDay 0)
        "vacation" "admin" (GoTime.ofDay 0)).EndDate.ns) := by
  decide

/-- Claim C8 (amended): NewDriverAssignment copies the supplied dates without
validating their order, so the invariant is not established at construction;
ExtendPeriod and ShortenPeriod do maintain it: each succeeds exactly when the
new end date is not before the start date and respects the current end date
(not before it for extension, not after it for shortening), on success the
end date becomes the new date and is not before the start date, and on error
the assignment is returned unchanged. -/
theorem claimC8_amended (da : DriverAssignment) (newEnd now : GoTime) :
    ((da.ExtendPeriod newEnd now).2 = none ↔
        da.StartDate.ns ≤ newEnd.ns ∧ da.EndDate.ns ≤ newEnd.ns) ∧
    ((da.ExtendPeriod newEnd now).2 = none →
        (da.ExtendPeriod newEnd now).1.EndDate = newEnd ∧
        (da.ExtendPeriod newEnd now).1.StartDate.ns ≤
          (da.ExtendPeriod newEnd now).1.EndDate.ns) ∧
    ((da.ExtendPeriod newEnd now).2 ≠ none → (da.ExtendPeriod newEnd now).1 = da) ∧
    ((da.ShortenPeriod newEnd now).2 = none ↔
        da.StartDate.ns ≤ newEnd.ns ∧ newEnd.ns ≤ da.EndDate.ns) ∧
    ((da.ShortenPeriod newEnd now).2 = none →
        (da.ShortenPeriod newEnd now).1.EndDate = newEnd ∧
        (da.ShortenPeriod newEnd now).1.StartDate.ns ≤
          (da.ShortenPeriod newEnd now).1.EndDate.ns) ∧
    ((da.ShortenPeriod newEnd now).2 ≠ none → (da.ShortenPeriod newEnd now).1 = da) := by
  by_cases h1 : newEnd.ns < da.StartDate.ns <;>
    by_cases h2 : newEnd.ns < da.EndDate.ns <;>
    by_cases h3 : da.EndDate.ns < newEnd.ns <;>
    simp [DriverAssignment.ExtendPeriod, DriverAssignment.ShortenPeriod,
      GoTime.Before, GoTime.After, h1, h2, h3] <;>
    omega

/-- Witness for claim C8 (amended): on a concrete assignment over days 0 to 2,
extending to day 5 succeeds with the documented effect, and shortening to day
minus one is rejected leaving the assignment unchanged. -/
theorem claimC8_witness :
    ((NewDriverAssignment "sched1" "drvG" (GoTime.ofDay 0) (GoTime.ofDay 2)
        "vacation" "admin" (GoTime.ofDay 0)).ExtendPeriod (GoTime.ofDay 5)
        (GoTime.ofDay 0)).1.EndDate = GoTime.ofDay 5 ∧
    ((NewDriverAssignment "sched1" "drvG" (GoTime.ofDay 0) (GoTime.ofDay 2)
        "vacation" "admin" (GoTime.ofDay 0)).ExtendPeriod (GoTime.ofDay 5)
        (GoTime.ofDay 0)).1.StartDate.ns ≤
      ((NewDriverAssignment "sched1" "drvG" (GoTime.ofDay 0) (GoTime.ofDay 2)
        "vacation" "admin" (GoTime.ofDay 0)).ExtendPeriod (GoTime.ofDay 5)
        (GoTime.ofDay 0)).1.EndDate.ns ∧
    ((NewDriverAssignment "sched1" "drvG" (GoTime.ofDay 0) (GoTime.ofDay 2)
        "vacation" "admin" (GoTime.ofDay 0)).ShortenPeriod (GoTime.ofDay (-1))
        (GoTime.ofDay 0)).1 =
      NewDriverAssignment "sched1" "drvG" (GoTime.ofDay 0) (GoTime.ofDay 2)
        "vacation" "admin" (GoTime.ofDay 0) := by
  have h := claimC8_amended
    (NewDriverAssignment "sched1" "drvG" (GoTime.ofDay 0) (GoTime.ofDay 2)
      "vacation" "admin" (GoTime.ofDay 0)) (GoTime.ofDay 5) (GoTime.ofDay 0)
  have h2 := claimC8_amended
    (NewDriverAssignment "sched1" "drvG" (GoTime.ofDay 0) (GoTime.ofDay 2)
      "vacation" "admin" (GoTime.ofDay 0)) (GoTime.ofDay (-1)) (GoTime.ofDay 0)
  have hok := h.2.1 (by decide)
  exact ⟨hok.1, hok.2, h2.2.2.2.2.2 (by decide)⟩

/-- Claim C7: a driver assignment is active on a date exactly when it is not
soft-deleted and the civil day of the date lies in the inclusive civil-day
range of its start and end dates, regardless of time of day. -/
theorem claimC7_assignment_window (da : DriverAssignment) (date : GoTime) :
    da.IsActiveOnDate date = true ↔
      da.DeletedAt = none ∧ da.StartDate.dayIndex ≤ date.dayIndex ∧
        date.dayIndex ≤ da.EndDate.dayIndex := by
  cases hda : da.DeletedAt with
  | some x => simp [DriverAssignment.IsActiveOnDate, hda]
  | none =>
    simp [DriverAssignment.IsActiveOnDate, hda, GoTime.truncateToDay, GoTime.Equal,
      GoTime.After, GoTime.Before, nsPerDay]
    omega

/-- The civil day of the midnight instant of day d is d itself. -/
theorem GoTime.dayIndex_ofDay (d : Int) : (GoTime.ofDay d).dayIndex = d := by
  simp only [GoTime.ofDay, GoTime.dayIndex]
  exact Int.mul_fdiv_cancel d (by norm_num [nsPerDay])

/-- The Go weekday of the midnight instant of day d. -/
theorem GoTime.weekday_ofDay (d : Int) : (GoTime.ofDay d).Weekday = (d + 4).emod 7 := by
  simp [GoTime.Weekday, GoTime.dayIndex_ofDay]

/-- A sample schedule running every weekday value, valid exactly on the
instant window given by day 0 at midnight. -/
def schedC5 : Schedule :=
  { ID := "sched5", Name := "daily", Description := "", Status := ScheduleStatus.active,
    StartTime := "08:00", TimeSlotField := TimeSlot.morning,
    DaysOfWeek := [1, 2, 3, 4, 5, 6, 7], RouteID := "routeA", VehicleID := "veh1",
    DefaultDriverID := "drv1", DefaultAttendantID := none,
    ValidFrom := some (GoTime.ofDay 0), ValidTo := some (GoTime.ofDay 0),
    CreatedAt := GoTime.ofDay 0, UpdatedAt := GoTime.ofDay 0, DeletedAt := none }

/-- Counterexample to claim C5 as stated: Schedule.IsActiveOnDate compares the
raw instants, not civil days, so with ValidFrom and ValidTo both at the
midnight of day 0 the schedule is active at that midnight but inactive one
hour later on the very same day. -/
theorem claimC5_counterexample :
    schedC5.IsActiveOnDate (GoTime.ofDay 0) = true ∧
    schedC5.IsActiveOnDate ⟨3600000000000⟩ = false := by
  decide

/-- Claim C5 (amended): the validity window of a schedule is compared at
instant granularity, not date-only.  For a schedule whose window is the single
midnight instant of day d and whose recurrence set contains the weekday of d,
the schedule is active exactly at that midnight instant: it is inactive at
every later instant of day d, and at the midnights of the previous and next
days. -/
theorem claimC5_amended (s : Schedule) (d ofs : Int)
    (hAct : s.IsActive = true)
    (hFrom : s.ValidFrom = some (GoTime.ofDay d))
    (hTo : s.ValidTo = some (GoTime.ofDay d))
    (hDow : (if (d + 4).emod 7 = 0 then 7 else (d + 4).emod 7) ∈ s.DaysOfWeek)
    (hofs : 0 < ofs) :
    s.IsActiveOnDate (GoTime.ofDay d) = true ∧
    s.IsActiveOnDate ⟨d * nsPerDay + ofs⟩ = false ∧
    s.IsActiveOnDate (GoTime.ofDay (d - 1)) = false ∧
    s.IsActiveOnDate (GoTime.ofDay (d + 1)) = false := by
  refine ⟨?_, ?_, ?_, ?_⟩
  · have hb : (GoTime.ofDay d).Before (GoTime.ofDay d) = false := by
      simp [GoTime.Before]
    have ha : (GoTime.ofDay d).After (GoTime.ofDay d) = false := by
      simp [GoTime.After]
    simp [Schedule.IsActiveOnDate, hAct, hFrom, hTo, hb, ha, GoTime.weekday_ofDay]
    exact hDow
  · have ha : GoTime.After ⟨d * nsPerDay + ofs⟩ (GoTime.ofDay d) = true := by
      simp [GoTime.After, GoTime.ofDay, nsPerDay]
      omega
    have hb : GoTime.Before ⟨d * nsPerDay + ofs⟩ (GoTime.ofDay d) = false := by
      simp [GoTime.Before, GoTime.ofDay, nsPerDay]
      omega
    simp [Schedule.IsActiveOnDate, hAct, hFrom, hTo, ha, hb]
  · have hb : (GoTime.ofDay (d - 1)).Before (GoTime.ofDay d) = true := by
      simp [GoTime.Before, GoTime.ofDay, nsPerDay]
    simp [Schedule.IsActiveOnDate, hAct, hFrom, hTo, hb]
  · have hb : (GoTime.ofDay (d + 1)).Before (GoTime.ofDay d) = false := by
      simp [GoTime.Before, GoTime.ofDay, nsPerDay]
    have ha : (GoTime.ofDay (d + 1)).After (GoTime.ofDay d) = true := by
      simp [GoTime.After, GoTime.ofDay, nsPerDay]
    simp [Schedule.IsActiveOnDate, hAct, hFrom, hTo, hb, ha]

/-- Witness for claim C5 (amended): the sample schedule with window at the
midnight of day 0 is active at that midnight, inactive one hour later the same
day, and inactive at the midnights of the neighbouring days. -/
theorem claimC5_witness :
    schedC5.IsActiveOnDate (GoTime.ofDay 0) = true ∧
    schedC5.IsActiveOnDate ⟨0 * nsPerDay + 3600000000000⟩ = false ∧
    schedC5.IsActiveOnDate (GoTime.ofDay (0 - 1)) = false ∧
    schedC5.IsActiveOnDate (GoTime.ofDay (0 + 1)) = false :=
  claimC5_amended schedC5 0 3600000000000 (by decide) rfl rfl (by decide) (by decide)

/-- Claim C6: for an active, non-deleted schedule whose validity window does
not reject the date, IsActiveOnDate accepts exactly when the weekday of the
date, mapped so that Sunday resolves to 7, belongs to the recurrence set. -/
theorem claimC6_weekday (s : Schedule) (date : GoTime)
    (hAct : s.IsActive = true)
    (hFrom : ∀ vf, s.ValidFrom = some vf → date.Before vf = false)
    (hTo : ∀ vt, s.ValidTo = some vt → date.After vt = false) :
    s.IsActiveOnDate date = true ↔
      (if date.Weekday = 0 then 7 else date.Weekday) ∈ s.DaysOfWeek := by
  have h1 : (match s.ValidFrom with
             | some vf => date.Before vf
             | none => false) = false := by
    cases hvf : s.ValidFrom with
    | none => rfl
    | some vf => exact hFrom vf hvf
  have h2 : (match s.ValidTo with
             | some vt => date.After vt
             | none => false) = false := by
    cases hvt : s.ValidTo with
    | none => rfl
    | some vt => exact hTo vt hvt
  simp [Schedule.IsActiveOnDate, hAct, h1, h2]

/-- A sample weekend-only schedule with no validity window. -/
def schedWeekend : Schedule :=
  { ID := "sched67", Name := "weekend", Description := "", Status := ScheduleStatus.active,
    StartTime := "09:00", TimeSlotField := TimeSlot.morning, DaysOfWeek := [6, 7],
    RouteID := "routeB", VehicleID := "veh2", DefaultDriverID := "drv2",
    DefaultAttendantID := none, ValidFrom := none, ValidTo := none,
    CreatedAt := GoTime.ofDay 0, UpdatedAt := GoTime.ofDay 0, DeletedAt := none }

/-- Witness for claim C6: the weekend schedule is active on a Saturday (day
index 2) and a Sunday (day index 3, whose weekday resolves to 7, not 0), and
inactive on a Monday (day index 4). -/
theorem claimC6_witness :
    schedWeekend.IsActiveOnDate (GoTime.ofDay 2) = true ∧
    schedWeekend.IsActiveOnDate (GoTime.ofDay 3) = true ∧
    schedWeekend.IsActiveOnDate (GoTime.ofDay 4) = false := by
  have hSat := (claimC6_weekday schedWeekend (GoTime.ofDay 2) (by decide)
    (fun vf h => Option.noConfusion h) (fun vt h => Option.noConfusion h)).mpr (by decide)
  have hSun := (claimC6_weekday schedWeekend (GoTime.ofDay 3) (by decide)
    (fun vf h => Option.noConfusion h) (fun vt h => Option.noConfusion h)).mpr (by decide)
  have hMonIff := claimC6_weekday schedWeekend (GoTime.ofDay 4) (by decide)
    (fun vf h => Option.noConfusion h) (fun vt h => Option.noConfusion h)
  have hMon : schedWeekend.IsActiveOnDate (GoTime.ofDay 4) = false := by
    cases hb : schedWeekend.IsActiveOnDate (GoTime.ofDay 4) with
    | false => rfl
    | true => exact absurd (hMonIff.mp hb) (by decide)
  exact ⟨hSat, hSun, hMon⟩

/-! Helper lemmas for the generation model. -/

/-- Unfolding equation for generateTripsForDate. -/
theorem generateTripsForDate_def (date : GoTime) (schedules : List Schedule)
    (overridesFor : String → List DriverAssignment)
    (rosterOf : String → List (String × String)) (store : List Trip) (now : GoTime) :
    generateTripsForDate date schedules overridesFor rosterOf store now =
      (store ++ (genLoop date overridesFor rosterOf (existingTripKeys store date)
        now schedules).1,
       ⟨(genLoop date overridesFor rosterOf (existingTripKeys store date) now schedules).1,
        (genLoop date overridesFor rosterOf (existingTripKeys store date) now schedules).2⟩) :=
  rfl

/-- The emitted trip carries the generation date and schedule identity and is
not soft-deleted. -/
theorem tripForSchedule_fields (s : Schedule) (date : GoTime)
    (overridesFor : String → List DriverAssignment)
    (rosterOf : String → List (String × String)) (now : GoTime) :
    (tripForSchedule s date overridesFor rosterOf now).Date = date ∧
    (tripForSchedule s date overridesFor rosterOf now).ScheduleID = s.ID ∧
    (tripForSchedule s date overridesFor rosterOf now).DeletedAt = none :=
  ⟨rfl, rfl, rfl⟩

/-- Existing trip keys distribute over store concatenation. -/
theorem existingTripKeys_append (a b : List Trip) (date : GoTime) :
    existingTripKeys (a ++ b) date =
      existingTripKeys a date ++ existingTripKeys b date := by
  simp [existingTripKeys]

/-- Membership in the existing trip keys of a store snapshot. -/
theorem mem_existingTripKeys (st : List Trip) (date : GoTime) (sid : String) :
    sid ∈ existingTripKeys st date ↔
      ∃ t, t ∈ st ∧ t.ScheduleID = sid ∧ t.Date = date ∧ t.DeletedAt = none := by
  simp only [existingTripKeys, List.mem_map, List.mem_filter, Bool.and_eq_true,
    decide_eq_true_eq, Option.isNone_iff_eq_none]
  constructor
  · rintro ⟨t, ⟨ht, hd, hdel⟩, rfl⟩
    exact ⟨t, ht, rfl, hd, hdel⟩
  · rintro ⟨t, ht, rfl, hd, hdel⟩
    exact ⟨t, ⟨ht, hd, hdel⟩, rfl⟩

/-- Every trip created by the generation loop carries the generation date, is
not soft-deleted, and stems from a schedule of the input list. -/
theorem genLoop_created_spec (date : GoTime)
    (overridesFor : String → List DriverAssignment)
    (rosterOf : String → List (String × String)) (keys : List String) (now : GoTime)
    (schedules : List Schedule) :
    ∀ t, t ∈ (genLoop date overridesFor rosterOf keys now schedules).1 →
      t.Date = date ∧ t.DeletedAt = none ∧
        ∃ s, s ∈ schedules ∧ t.ScheduleID = s.ID := by
  induction schedules with
  | nil => intro t ht; simp [genLoop] at ht
  | cons s0 rest ih =>
    intro t ht
    simp only [genLoop] at ht
    split at ht
    · obtain ⟨h1, h2, s', hs', h3⟩ := ih t ht
      exact ⟨h1, h2, s', List.mem_cons_of_mem _ hs', h3⟩
    · split at ht
      · rcases List.mem_cons.mp ht with rfl | ht'
        · exact ⟨rfl, rfl, s0, List.mem_cons_self s0 rest, rfl⟩
        · obtain ⟨h1, h2, s', hs', h3⟩ := ih t ht'
          exact ⟨h1, h2, s', List.mem_cons_of_mem _ hs', h3⟩
      · obtain ⟨h1, h2, s', hs', h3⟩ := ih t ht
        exact ⟨h1, h2, s', List.mem_cons_of_mem _ hs', h3⟩

/-- A schedule of the input list whose key is already present is reported as
skipped with reason already generated. -/
theorem genLoop_skip_spec (date : GoTime)
    (overridesFor : String → List DriverAssignment)
    (rosterOf : String → List (String × String)) (keys : List String) (now : GoTime)
    (schedules : List Schedule) :
    ∀ s, s ∈ schedules → s.ID ∈ keys →
      (⟨s.ID, "already generated"⟩ : SkipEntry) ∈
        (genLoop date overridesFor rosterOf keys now schedules).2 := by
  induction schedules with
  | nil => intro s hs; cases hs
  | cons s0 rest ih =>
    intro s hs hk
    simp only [genLoop]
    rcases List.mem_cons.mp hs with rfl | hs'
    · split
      next => exact List.mem_cons_self _ _
      next h => exact absurd (decide_eq_true hk) h
    · split
      next => exact List.mem_cons_of_mem _ (ih s hs' hk)
      next =>
        split
        next => exact ih s hs' hk
        next => exact List.mem_cons_of_mem _ (ih s hs' hk)

/-- A schedule of the input list that is active on the date and not already
keyed gives rise to a created trip with its schedule identity. -/
theorem genLoop_active_created (date : GoTime)
    (overridesFor : String → List DriverAssignment)
    (rosterOf : String → List (String × String)) (keys : List String) (now : GoTime)
    (schedules : List Schedule) :
    ∀ s, s ∈ schedules → s.IsActiveOnDate date = true → s.ID ∉ keys →
      ∃ t, t ∈ (genLoop date overridesFor rosterOf keys now schedules).1 ∧
        t.ScheduleID = s.ID := by
  induction schedules with
  | nil => intro s hs; cases hs
  | cons s0 rest ih =>
    intro s hs hact hk
    simp only [genLoop]
    rcases List.mem_cons.mp hs with rfl | hs'
    · split
      next h => exact absurd (of_decide_eq_true h) hk
      next =>
        exact ⟨tripForSchedule s date overridesFor rosterOf now,
          List.mem_cons_self _ _, rfl⟩
    · split
      next => exact ih s hs' hact hk
      next =>
        split
        next =>
          obtain ⟨t, ht, hts⟩ := ih s hs' hact hk
          exact ⟨t, List.mem_cons_of_mem _ ht, hts⟩
        next => exact ih s hs' hact hk

/-- When every schedule active on the date is already keyed, the generation
loop creates nothing. -/
theorem genLoop_created_nil (date : GoTime)
    (overridesFor : String → List DriverAssignment)
    (rosterOf : String → List (String × String)) (keys : List String) (now : GoTime)
    (schedules : List Schedule)
    (h : ∀ s, s ∈ schedules → s.IsActiveOnDate date = true → s.ID ∈ keys) :
    (genLoop date overridesFor rosterOf keys now schedules).1 = [] := by
  induction schedules with
  | nil => rfl
  | cons s0 rest ih =>
    have hrest := ih (fun s hs => h s (List.mem_cons_of_mem _ hs))
    simp only [genLoop]
    split
    next => exact hrest
    next hkeys =>
      split
      next hact =>
        exact absurd (decide_eq_true (h s0 (List.mem_cons_self _ _) hact)) hkeys
      next => exact hrest

/-- Claim C1: generating trips for the same date twice over the same schedule
set changes nothing the second time: the trip store after the second call
equals the store after the first call, the second report creates nothing, and
every schedule whose trip was created by the first call is reported by the
second call as skipped with reason already generated. -/
theorem claimC1_idempotent (date now1 now2 : GoTime) (schedules : List Schedule)
    (overridesFor : String → List DriverAssignment)
    (rosterOf : String → List (String × String)) (store0 : List Trip) :
    (generateTripsForDate date schedules overridesFor rosterOf
        (generateTripsForDate date schedules overridesFor rosterOf store0 now1).1
        now2).1 =
      (generateTripsForDate date schedules overridesFor rosterOf store0 now1).1 ∧
    (generateTripsForDate date schedules overridesFor rosterOf
        (generateTripsForDate date schedules overridesFor rosterOf store0 now1).1
        now2).2.created = [] ∧
    ∀ t, t ∈ (generateTripsForDate date schedules overridesFor rosterOf store0
        now1).2.created →
      (⟨t.ScheduleID, "already generated"⟩ : SkipEntry) ∈
        (generateTripsForDate date schedules overridesFor rosterOf
          (generateTripsForDate date schedules overridesFor rosterOf store0 now1).1
          now2).2.skipped := by
  have hkey2 : ∀ s, s ∈ schedules → s.IsActiveOnDate date = true →
      s.ID ∈ existingTripKeys
        (store0 ++ (genLoop date overridesFor rosterOf
          (existingTripKeys store0 date) now1 schedules).1) date := by
    intro s hs hact
    rw [existingTripKeys_append]
    by_cases hk : s.ID ∈ existingTripKeys store0 date
    · exact List.mem_append.mpr (Or.inl hk)
    · obtain ⟨t, ht, hts⟩ := genLoop_active_created date overridesFor rosterOf
        (existingTripKeys store0 date) now1 schedules s hs hact hk
      obtain ⟨hd, hdel, -⟩ := genLoop_created_spec date overridesFor rosterOf
        (existingTripKeys store0 date) now1 schedules t ht
      exact List.mem_append.mpr (Or.inr
        ((mem_existingTripKeys _ date s.ID).mpr ⟨t, ht, hts, hd, hdel⟩))
  have hempty : (genLoop date overridesFor rosterOf
      (existingTripKeys
        (store0 ++ (genLoop date overridesFor rosterOf
          (existingTripKeys store0 date) now1 schedules).1) date)
      now2 schedules).1 = [] :=
    genLoop_created_nil date overridesFor rosterOf _ now2 schedules hkey2
  refine ⟨?_, ?_, ?_⟩
  · simp only [generateTripsForDate_def]
    rw [hempty, List.append_nil]
  · simp only [generateTripsForDate_def]
    exact hempty
  · intro t ht
    simp only [generateTripsForDate_def] at ht ⊢
    obtain ⟨hd, hdel, s, hs, hts⟩ := genLoop_created_spec date overridesFor rosterOf
      (existingTripKeys store0 date) now1 schedules t ht
    have hmem : s.ID ∈ existingTripKeys
        (store0 ++ (genLoop date overridesFor rosterOf
          (existingTripKeys store0 date) now1 schedules).1) date := by
      rw [existingTripKeys_append]
      exact List.mem_append.mpr (Or.inr
        ((mem_existingTripKeys _ date s.ID).mpr ⟨t, ht, hts, hd, hdel⟩))
    have hskip := genLoop_skip_spec date overridesFor rosterOf _ now2 schedules s hs hmem
    rw [hts]
    exact hskip

/-- Witness for claim C1: on a concrete schedule and an empty store, the first
call creates a trip, and the second call leaves the store unchanged and skips
the schedule with reason already generated. -/
theorem claimC1_witness :
    (generateTripsForDate (GoTime.ofDay 0) [schedC5] (fun _ => []) (fun _ => [])
        (generateTripsForDate (GoTime.ofDay 0) [schedC5] (fun _ => []) (fun _ => [])
          [] (GoTime.ofDay 0)).1 (GoTime.ofDay 1)).1 =
      (generateTripsForDate (GoTime.ofDay 0) [schedC5] (fun _ => []) (fun _ => [])
        [] (GoTime.ofDay 0)).1 ∧
    (generateTripsForDate (GoTime.ofDay 0) [schedC5] (fun _ => []) (fun _ => [])
        [] (GoTime.ofDay 0)).2.created ≠ [] ∧
    (⟨"sched5", "already generated"⟩ : SkipEntry) ∈
      (generateTripsForDate (GoTime.ofDay 0) [schedC5] (fun _ => []) (fun _ => [])
        (generateTripsForDate (GoTime.ofDay 0) [schedC5] (fun _ => []) (fun _ => [])
          [] (GoTime.ofDay 0)).1 (GoTime.ofDay 1)).2.skipped := by
  have h := claimC1_idempotent (GoTime.ofDay 0) (GoTime.ofDay 0) (GoTime.ofDay 1)
    [schedC5] (fun _ => []) (fun _ => []) []
  have hact : schedC5.IsActiveOnDate (GoTime.ofDay 0) = true := by decide
  have hcr : (generateTripsForDate (GoTime.ofDay 0) [schedC5] (fun _ => [])
      (fun _ => []) [] (GoTime.ofDay 0)).2.created =
      [tripForSchedule schedC5 (GoTime.ofDay 0) (fun _ => []) (fun _ => [])
        (GoTime.ofDay 0)] := by
    simp [generateTripsForDate_def, genLoop, existingTripKeys, hact]
  refine ⟨h.1, ?_, ?_⟩
  · rw [hcr]
    simp
  · have hmem : tripForSchedule schedC5 (GoTime.ofDay 0) (fun _ => []) (fun _ => [])
        (GoTime.ofDay 0) ∈ (generateTripsForDate (GoTime.ofDay 0) [schedC5]
        (fun _ => []) (fun _ => []) [] (GoTime.ofDay 0)).2.created := by
      rw [hcr]
      exact List.mem_cons_self _ _
    exact h.2.2 _ hmem

end Eodini
